import Mathlib

/-!
Verification of the `databend-base` graceful-shutdown coordinator.

A shallow embedding of `src/shutdown/shutdown_group.rs`, `src/shutdown/graceful.rs`
and `src/unwind/mod.rs` in a discrete-time futures model.

A future is modelled by its completion time: `some t` means the future becomes
ready at logical time `t` (and stays ready); `none` means it never completes.
A `Graceful` service is modelled by its `shutdown` behaviour: a function from
the optional force-signal handle it receives to the resolve time of its returned
future together with its per-service `Result<(), E>`.

`ShutdownGroup.shutdown_all` is translated from the Rust source line by line:
it performs the compare-exchange on `shutting_down` (failing with
`AlreadyShuttingDown` before any service is touched), wraps the optional force
future into the shared-signal machinery, invokes every service once via `map`,
and joins all service futures into a single composite future whose resolved
value is unit (`let _ = join_all.await`).  The embedding additionally records
the argument every service received (`invocations`), the per-service results
collected by `join_all` (`results`), and the per-service resolve times.
-/

namespace DatabendBase

/-- Completion time of a future: `some t` = ready at every time `≥ t`,
`none` = never completes. -/
abbrev FTime := Option Nat

/-- `fle a b`: future `a` completes no later than future `b`
(a never-completing future is later than everything). -/
def fle : FTime → FTime → Prop
  | some a, some b => a ≤ b
  | some _, none => True
  | none, some _ => False
  | none, none => True

/-- Completion time of a future joining two futures: the later of the two. -/
def fmax : FTime → FTime → FTime
  | some a, some b => some (max a b)
  | _, _ => none

/-- Completion time of `futures::future::join_all`: the empty join is
immediately ready; otherwise the latest of all completion times. -/
def joinAll (ts : List FTime) : FTime := ts.foldr fmax (some 0)

/-- Whether a future with completion time `h` has fired by (wall-clock) time `t`. -/
def firedAt (h : FTime) (t : Nat) : Bool :=
  match h with
  | some ft => decide (ft ≤ t)
  | none => false

/-- `ShutdownError` from `shutdown_group.rs`. -/
inductive ShutdownError where
  | AlreadyShuttingDown
deriving DecidableEq, Repr

/-- A `Graceful` service (`graceful.rs`): `shutdown` receives an optional
force-signal handle (modelled by its completion time) and yields the resolve
time of its cleanup future plus its `Result<(), E>`. -/
structure Service (E : Type) where
  behavior : Option FTime → FTime × Except E Unit

/-- `ShutdownGroup` state: the atomic `shutting_down` flag and the ordered
service list. -/
structure ShutdownGroup (E : Type) where
  shutting_down : Bool
  services : List (Service E)

/-- `ShutdownGroup::new`. -/
def ShutdownGroup.new {E : Type} : ShutdownGroup E :=
  { shutting_down := false, services := [] }

/-- `ShutdownGroup::push`: appends a service at the end. -/
def ShutdownGroup.push {E : Type} (g : ShutdownGroup E) (s : Service E) :
    ShutdownGroup E :=
  { g with services := g.services ++ [s] }

/-- Registering a whole list of services one by one. -/
def ShutdownGroup.pushAll {E : Type} (g : ShutdownGroup E)
    (ss : List (Service E)) : ShutdownGroup E :=
  ss.foldl ShutdownGroup.push g

/-- The `Shared` wrapper from `futures`: every clone of a shared future
completes exactly when the underlying future does.  In the time model the
shared signal is therefore represented by the underlying completion time. -/
structure SharedSignal where
  underlying : FTime

/-- Cloning a handle to a shared signal: the handle completes at the
completion time of the underlying future. -/
def SharedSignal.handleTime (s : SharedSignal) : FTime := s.underlying

/-- Whether a holder of a handle to `s` observes the firing by time `t`. -/
def SharedSignal.observedAt (s : SharedSignal) (t : Nat) : Bool :=
  firedAt s.handleTime t

/-- A waiter that awaits a handle to `s` and afterwards finishes its own work
at time `k`: it resolves at the later of the firing and `k`. -/
def SharedSignal.awaitThen (s : SharedSignal) (k : FTime) : FTime :=
  fmax s.handleTime k

/-- Everything one run of `ShutdownGroup::shutdown_all` produces, as recorded
by the embedding: the post state, the argument the `shutdown` of each service
received (one entry per invocation, in service order), the per-service results
collected by `join_all`, the per-service resolve times, and the composite
future (completion time plus resolved value, which the source discards into
unit via `let _ = join_all.await`). -/
structure ShutdownOutcome (E : Type) where
  state : ShutdownGroup E
  invocations : List (Option FTime)
  results : List (Except E Unit)
  resolveTimes : List FTime
  compositeTime : FTime
  compositeValue : Unit

/-- `ShutdownGroup::shutdown_all` from `shutdown_group.rs` lines 59-83.
The compare-exchange on `shutting_down` is a single atomic step; on failure the
function returns `AlreadyShuttingDown` before any service is invoked. -/
def ShutdownGroup.shutdown_all {E : Type} (g : ShutdownGroup E)
    (force : Option FTime) :
    Except ShutdownError (ShutdownOutcome E) :=
  if g.shutting_down then
    .error .AlreadyShuttingDown
  else
    let shared : Option FTime :=
      force.map (fun f => (SharedSignal.mk f).handleTime)
    let handles := g.services.map (fun s => s.behavior shared)
    .ok
      { state := { g with shutting_down := true }
        invocations := g.services.map (fun _ => shared)
        results := handles.map Prod.snd
        resolveTimes := handles.map Prod.fst
        compositeTime := joinAll (handles.map Prod.fst)
        compositeValue := () }

/-- The force future built in `Drop::drop`: `async {}.boxed()`, ready
immediately. -/
def readyNow : FTime := some 0

/-- What dropping a `ShutdownGroup` produces: the post state, the recorded
service invocations, the time at which the blocking `drop` returns, and
whether `block_on` was entered at all. -/
structure DropOutcome (E : Type) where
  state : ShutdownGroup E
  invocations : List (Option FTime)
  resolveTimes : List FTime
  returnTime : FTime
  blocked : Bool

/-- `<ShutdownGroup as Drop>::drop` (lines 141-154): build an
immediately-ready force future, call `shutdown_all`, and on success block the
current thread on the composite future; on `AlreadyShuttingDown` the `if let
Ok` branch is skipped and drop returns at once. -/
def ShutdownGroup.dropGroup {E : Type} (g : ShutdownGroup E) : DropOutcome E :=
  match g.shutdown_all (some readyNow) with
  | .ok o =>
      { state := o.state
        invocations := o.invocations
        resolveTimes := o.resolveTimes
        returnTime := o.compositeTime
        blocked := true }
  | .error _ =>
      { state := g
        invocations := []
        resolveTimes := []
        returnTime := some 0
        blocked := false }

/-- What `ShutdownGroup::wait_to_terminate` produces: the post state, the
recorded service invocations, the time at which the returned future resolves,
whether the `AlreadyShuttingDown` branch logged, and whether a shutdown
sequence ran. -/
structure WaitOutcome (E : Type) where
  state : ShutdownGroup E
  invocations : List (Option FTime)
  resolveTime : FTime
  loggedAlready : Bool
  ranShutdown : Bool

/-- `ShutdownGroup::wait_to_terminate` (lines 89-112), with the signal source
modelled by the delivery times of its first and second notifications
(`n1`, `n2 : FTime`; `none` = never delivered).  The future first awaits the
first notification; on receipt it builds a force future completing at the
second notification and calls `shutdown_all` with it; `AlreadyShuttingDown`
is logged and the future still resolves normally. -/
def ShutdownGroup.wait_to_terminate {E : Type} (g : ShutdownGroup E)
    (n1 n2 : FTime) : WaitOutcome E :=
  match n1 with
  | none =>
      { state := g
        invocations := []
        resolveTime := none
        loggedAlready := false
        ranShutdown := false }
  | some t1 =>
      match g.shutdown_all (some n2) with
      | .ok o =>
          { state := o.state
            invocations := o.invocations
            resolveTime := fmax (some t1) o.compositeTime
            loggedAlready := false
            ranShutdown := true }
      | .error _ =>
          { state := g
            invocations := []
            resolveTime := some t1
            loggedAlready := true
            ranShutdown := false }

/-- Two callers racing on `shutdown_all` on the same group.  The
`compare_exchange` on `shutting_down` is a single atomic step, so an
interleaving of the two calls is determined by whose compare-exchange
executes first (`aFirst`); the losing call then runs against the updated
flag. -/
def ShutdownGroup.raceShutdownAll {E : Type} (g : ShutdownGroup E)
    (fA fB : Option FTime) (aFirst : Bool) :
    Except ShutdownError (ShutdownOutcome E) ×
      Except ShutdownError (ShutdownOutcome E) :=
  if aFirst then
    let rA := g.shutdown_all fA
    let gmid := match rA with | .ok o => o.state | .error _ => g
    (rA, gmid.shutdown_all fB)
  else
    let rB := g.shutdown_all fB
    let gmid := match rB with | .ok o => o.state | .error _ => g
    (gmid.shutdown_all fA, rB)

/-- How many service invocations one `shutdown_all` call performed: an erroring
call returns before touching any service. -/
def invocationCount {E : Type} (r : Except ShutdownError (ShutdownOutcome E)) :
    Nat :=
  match r with
  | .ok o => o.invocations.length
  | .error _ => 0

/-- The operations a caller can perform on a group after construction. -/
inductive Op (E : Type) where
  | push (s : Service E)
  | shutdownAll (force : Option FTime)
  | dropOp
  | waitTerminate (n1 n2 : FTime)

/-- Applying one operation to the group: the new state, plus how many shutdown
sequences (successful `shutdown_all` runs that invoke the services) it
executed. -/
def ShutdownGroup.applyOp {E : Type} (g : ShutdownGroup E) :
    Op E → ShutdownGroup E × Nat
  | .push s => (g.push s, 0)
  | .shutdownAll f =>
      match g.shutdown_all f with
      | .ok o => (o.state, 1)
      | .error _ => (g, 0)
  | .dropOp =>
      let d := g.dropGroup
      (d.state, if d.blocked then 1 else 0)
  | .waitTerminate n1 n2 =>
      let w := g.wait_to_terminate n1 n2
      (w.state, if w.ranShutdown then 1 else 0)

/-- Running a sequence of operations, accumulating the number of executed
shutdown sequences. -/
def ShutdownGroup.runOps {E : Type} :
    ShutdownGroup E → List (Op E) → ShutdownGroup E × Nat
  | g, [] => (g, 0)
  | g, op :: ops =>
      let p := g.applyOp op
      let q := ShutdownGroup.runOps p.1 ops
      (q.1, p.2 + q.2)

/-- Outcome of `drop_guard` (`unwind/mod.rs`): the result of the callback (or the
propagated panic payload) and whether the double-panic backtrace diagnostics
were emitted. -/
structure GuardOutcome (P R : Type) where
  result : Except P R
  printedBacktrace : Bool

/-- `drop_guard` from `unwind/mod.rs` lines 19-35.  `panicking` is
`std::thread::panicking()` at entry; the callback `f` is modelled as a state
transformer on `σ` that either returns a value or panics with a payload `P`.
`catch_unwind` runs the callback (its effects happen in every case); on
`Ok(res)` the result is returned unchanged; on a caught panic, the backtrace
diagnostics are emitted exactly when the thread was already unwinding, and the
caught payload is re-raised via `resume_unwind`. -/
def drop_guard {σ P R : Type} (panicking : Bool) (f : σ → σ × Except P R)
    (s : σ) : σ × GuardOutcome P R :=
  let fr := f s
  match fr.2 with
  | .ok v => (fr.1, { result := .ok v, printedBacktrace := false })
  | .error p => (fr.1, { result := .error p, printedBacktrace := panicking })

/-- Sample service whose cleanup succeeds immediately. -/
def svcOk : Service String :=
  ⟨fun _ => (some 0, .ok ())⟩

/-- Sample service whose cleanup fails with an error. -/
def svcErr : Service String :=
  ⟨fun _ => (some 0, .error "cleanup failed")⟩

/-! ## Helper lemmas -/

theorem pushAll_eq {E : Type} (b : Bool) (acc ss : List (Service E)) :
    ShutdownGroup.pushAll ⟨b, acc⟩ ss = ⟨b, acc ++ ss⟩ := by
  induction ss generalizing acc with
  | nil => simp [ShutdownGroup.pushAll]
  | cons s ss ih =>
      show ShutdownGroup.pushAll (ShutdownGroup.push ⟨b, acc⟩ s) ss = _
      rw [ShutdownGroup.push]
      rw [ih (acc ++ [s])]
      simp

theorem fle_fmax_left (a b : FTime) : fle a (fmax a b) := by
  cases a <;> cases b <;> simp [fle, fmax]

theorem fle_fmax_of_fle_right (t a b : FTime) (h : fle t b) :
    fle t (fmax a b) := by
  cases t <;> cases a <;> cases b <;> simp_all [fle, fmax]

theorem joinAll_ub (ts : List FTime) : ∀ t ∈ ts, fle t (joinAll ts) := by
  induction ts with
  | nil => simp
  | cons x xs ih =>
      intro t ht
      show fle t (fmax x (xs.foldr fmax (some 0)))
      rcases List.mem_cons.mp ht with h | h
      · subst h; exact fle_fmax_left _ _
      · exact fle_fmax_of_fle_right t x _ (ih t h)

theorem shutdown_all_flag_true {E : Type} (g : ShutdownGroup E)
    (force : Option FTime) (h : g.shutting_down = true) :
    g.shutdown_all force = .error .AlreadyShuttingDown := by
  simp [ShutdownGroup.shutdown_all, h]

theorem shutdown_all_flag_false {E : Type} (svcs : List (Service E))
    (force : Option FTime) :
    (ShutdownGroup.mk false svcs).shutdown_all force =
      .ok
        { state := ⟨true, svcs⟩
          invocations := svcs.map (fun _ => force)
          results := svcs.map (fun s => (s.behavior force).2)
          resolveTimes := svcs.map (fun s => (s.behavior force).1)
          compositeTime := joinAll (svcs.map (fun s => (s.behavior force).1))
          compositeValue := () } := by
  cases force <;>
    simp [ShutdownGroup.shutdown_all, SharedSignal.handleTime,
      Function.comp_def]

/-! ## Claim theorems -/

/-- Claim C1: for every list of `N ≥ 0` registered services, the first call to
`shutdown_all` on a fresh group returns `Ok`; the `shutdown` of each registered service is invoked exactly once (one invocation per service, in
registration order, all receiving the shared force handle), and the composite
future resolves only after the own shutdown future of every service has
resolved. -/
theorem shutdown_all_first_call {E : Type} (svcs : List (Service E))
    (force : Option FTime) :
    ∃ o : ShutdownOutcome E,
      (ShutdownGroup.new.pushAll svcs).shutdown_all force = .ok o ∧
      o.invocations = svcs.map (fun _ => force) ∧
      o.invocations.length = svcs.length ∧
      o.resolveTimes = svcs.map (fun s => (s.behavior force).1) ∧
      (∀ rt ∈ o.resolveTimes, fle rt o.compositeTime) := by
  rw [ShutdownGroup.new, pushAll_eq, List.nil_append]
  refine ⟨_, shutdown_all_flag_false svcs force, rfl, by simp, rfl, ?_⟩
  exact joinAll_ub _

/-- Claim C8: calling `shutdown_all` with `force = None` invokes every
registered service `shutdown` with the argument `None`, so each service
resolves at the time its own behaviour yields for a missing force signal,
independent of any shared signal. -/
theorem shutdown_all_none_force {E : Type} (svcs : List (Service E)) :
    ∃ o : ShutdownOutcome E,
      (ShutdownGroup.mk false svcs).shutdown_all none = .ok o ∧
      o.invocations = svcs.map (fun _ => none) ∧
      o.resolveTimes = svcs.map (fun s => (s.behavior none).1) := by
  exact ⟨_, shutdown_all_flag_false svcs none, rfl, rfl⟩

/-- Claim C3: dropping a group that never started a shutdown invokes every
registered service `shutdown` with `Some` of an already-fired force signal
(`async {}` — fired from time `0` on), and the drop blocks, returning only
after the shutdown future of every service has resolved. -/
theorem drop_without_shutdown {E : Type} (svcs : List (Service E)) :
    (ShutdownGroup.mk false svcs).dropGroup.invocations =
      svcs.map (fun _ => some readyNow) ∧
    (∀ t, firedAt readyNow t = true) ∧
    (ShutdownGroup.mk false svcs).dropGroup.blocked = true ∧
    (ShutdownGroup.mk false svcs).dropGroup.resolveTimes =
      svcs.map (fun s => (s.behavior (some readyNow)).1) ∧
    ∀ rt ∈ (ShutdownGroup.mk false svcs).dropGroup.resolveTimes,
      fle rt (ShutdownGroup.mk false svcs).dropGroup.returnTime := by
  have h := shutdown_all_flag_false svcs (some readyNow)
  have hd : (ShutdownGroup.mk false svcs).dropGroup =
      { state := ⟨true, svcs⟩
        invocations := svcs.map (fun _ => some readyNow)
        resolveTimes := svcs.map (fun s => (s.behavior (some readyNow)).1)
        returnTime := joinAll (svcs.map (fun s => (s.behavior (some readyNow)).1))
        blocked := true } := by
    rw [ShutdownGroup.dropGroup, h]
  refine ⟨?_, ?_, ?_, ?_, ?_⟩
  · rw [hd]
  · intro t; simp [firedAt, readyNow]
  · rw [hd]
  · rw [hd]
  · rw [hd]; exact joinAll_ub _

/-- Claim C10: dropping a group whose `shutting_down` flag is already set
performs no second shutdown: the internal `shutdown_all` call inside `drop`
returns `AlreadyShuttingDown`, the `if let Ok` branch is skipped, no service
is invoked, `block_on` is never entered (drop returns immediately), and the
group state is left unchanged. -/
theorem drop_after_shutdown {E : Type} (svcs : List (Service E)) :
    (ShutdownGroup.mk true svcs).shutdown_all (some readyNow) =
      .error .AlreadyShuttingDown ∧
    (ShutdownGroup.mk true svcs).dropGroup =
      { state := ⟨true, svcs⟩
        invocations := []
        resolveTimes := []
        returnTime := some 0
        blocked := false } := by
  have h := shutdown_all_flag_true (ShutdownGroup.mk true svcs)
    (some readyNow) rfl
  exact ⟨h, by rw [ShutdownGroup.dropGroup, h]⟩

/-- Claim C5, counterexample: the composite future returned by `shutdown_all`
resolves to unit (`let _ = join_all.await;` discards the joined results), so
its resolved value does not determine the per-service results: two concrete
one-service groups, one whose service succeeds and one whose service fails,
yield equal composite values but different aggregated results, hence no
function can recover the per-service results from the resolved
value. -/
theorem composite_value_hides_results :
    Except.map (fun o => o.compositeValue)
        ((ShutdownGroup.mk false [svcOk]).shutdown_all none) =
      Except.map (fun o => o.compositeValue)
        ((ShutdownGroup.mk false [svcErr]).shutdown_all none) ∧
    Except.map (fun o => o.results)
        ((ShutdownGroup.mk false [svcOk]).shutdown_all none) ≠
      Except.map (fun o => o.results)
        ((ShutdownGroup.mk false [svcErr]).shutdown_all none) ∧
    ¬∃ recover : Unit → List (Except String Unit),
        ∀ svcs : List (Service String),
          ∀ o : ShutdownOutcome String,
            (ShutdownGroup.mk false svcs).shutdown_all none = .ok o →
              recover o.compositeValue = o.results := by
  refine ⟨?_, ?_, ?_⟩
  · rfl
  · simp [shutdown_all_flag_false, svcOk, svcErr, Except.map]
  · rintro ⟨recover, h⟩
    have h1 := h [svcOk] _ (shutdown_all_flag_false [svcOk] none)
    have h2 := h [svcErr] _ (shutdown_all_flag_false [svcErr] none)
    rw [h1] at h2
    simp [svcOk, svcErr] at h2

/-- Claim C5, amended: `join_all` aggregates the per-service results (one
`Result<(), E>` per service, in registration order) inside the composite
future, but the composite resolves to unit, so the aggregated results are not
part of the value the caller of `shutdown_all` can observe. -/
theorem shutdown_all_aggregates_then_discards {E : Type}
    (svcs : List (Service E)) (force : Option FTime) :
    ∃ o : ShutdownOutcome E,
      (ShutdownGroup.mk false svcs).shutdown_all force = .ok o ∧
      o.results = svcs.map (fun s => (s.behavior force).2) ∧
      o.compositeValue = () := by
  exact ⟨_, shutdown_all_flag_false svcs force, rfl, rfl⟩

/-- Claim C2: once `shutdown_all` has succeeded, any further call returns
`AlreadyShuttingDown` and performs no service invocation.  The
compare-exchange is one atomic step, so a race of two callers reduces to the
two interleavings `aFirst = true / false`; in each, the caller whose
compare-exchange runs first succeeds and the other receives
`AlreadyShuttingDown`, and the services are invoked exactly once in total
(the loser contributes no invocation). -/
theorem shutdown_all_second_call {E : Type} (svcs : List (Service E))
    (fA fB : Option FTime) :
    (∃ o : ShutdownOutcome E,
        (ShutdownGroup.mk false svcs).shutdown_all fA = .ok o ∧
        o.state.shutdown_all fB = .error .AlreadyShuttingDown) ∧
    ((ShutdownGroup.mk false svcs).raceShutdownAll fA fB true).2 =
      .error .AlreadyShuttingDown ∧
    (∃ o : ShutdownOutcome E,
        ((ShutdownGroup.mk false svcs).raceShutdownAll fA fB true).1 =
          .ok o) ∧
    ((ShutdownGroup.mk false svcs).raceShutdownAll fA fB false).1 =
      .error .AlreadyShuttingDown ∧
    (∃ o : ShutdownOutcome E,
        ((ShutdownGroup.mk false svcs).raceShutdownAll fA fB false).2 =
          .ok o) ∧
    invocationCount ((ShutdownGroup.mk false svcs).raceShutdownAll fA fB true).1 +
      invocationCount ((ShutdownGroup.mk false svcs).raceShutdownAll fA fB true).2 =
      svcs.length ∧
    invocationCount ((ShutdownGroup.mk false svcs).raceShutdownAll fA fB false).1 +
      invocationCount ((ShutdownGroup.mk false svcs).raceShutdownAll fA fB false).2 =
      svcs.length := by
  have hA := shutdown_all_flag_false svcs fA
  have hB := shutdown_all_flag_false svcs fB
  have hT := fun f => shutdown_all_flag_true (ShutdownGroup.mk true svcs) f rfl
  refine ⟨⟨_, hA, hT fB⟩, ?_, ?_, ?_, ?_, ?_, ?_⟩ <;>
    simp [ShutdownGroup.raceShutdownAll, hA, hB, hT, invocationCount]

/-- Claim C4: `wait_to_terminate` suspends until the first notification (if it
never arrives, the future never resolves and no service is invoked); on
receipt it invokes `shutdown_all` with `Some` of a force future that completes
at the second notification, and its future resolves no earlier than the first
notification; if `shutdown_all` returns `AlreadyShuttingDown`, the condition
is logged and the future still resolves normally (at the first notification),
invoking no service and leaving the state unchanged. -/
theorem wait_to_terminate_spec {E : Type} (svcs : List (Service E))
    (flag : Bool) (t1 : Nat) (n2 : FTime) :
    ((ShutdownGroup.mk flag svcs).wait_to_terminate none n2).resolveTime =
      none ∧
    ((ShutdownGroup.mk flag svcs).wait_to_terminate none n2).invocations =
      [] ∧
    ((ShutdownGroup.mk flag svcs).wait_to_terminate none n2).ranShutdown =
      false ∧
    ((ShutdownGroup.mk false svcs).wait_to_terminate (some t1) n2).invocations =
      svcs.map (fun _ => some n2) ∧
    ((ShutdownGroup.mk false svcs).wait_to_terminate (some t1) n2).ranShutdown =
      true ∧
    fle (some t1)
      ((ShutdownGroup.mk false svcs).wait_to_terminate (some t1) n2).resolveTime ∧
    ((ShutdownGroup.mk false svcs).wait_to_terminate (some t1) n2).loggedAlready =
      false ∧
    ((ShutdownGroup.mk true svcs).wait_to_terminate (some t1) n2).loggedAlready =
      true ∧
    ((ShutdownGroup.mk true svcs).wait_to_terminate (some t1) n2).resolveTime =
      some t1 ∧
    ((ShutdownGroup.mk true svcs).wait_to_terminate (some t1) n2).invocations =
      [] ∧
    ((ShutdownGroup.mk true svcs).wait_to_terminate (some t1) n2).state =
      ⟨true, svcs⟩ := by
  have hF := shutdown_all_flag_false svcs (some n2)
  have hT := shutdown_all_flag_true (ShutdownGroup.mk true svcs) (some n2) rfl
  refine ⟨rfl, rfl, rfl, ?_, ?_, ?_, ?_, ?_, ?_, ?_, ?_⟩ <;>
    simp [ShutdownGroup.wait_to_terminate, hF, hT]
  exact fle_fmax_left _ _

/-- Claim C6: when `shutdown_all` receives a force future, every service
receives an independent handle to the same shared signal (each invocation
argument is `Some` of the handle time of the one shared wrapper of the
underlying future); a handle observes the firing at time `t` exactly when the
underlying future has completed by `t` (and a handle to a never-completing
future never observes a firing); and a waiter that awaits its handle resolves
no earlier than the firing. -/
theorem shared_force_signal {E : Type} (svcs : List (Service E)) (f t : Nat)
    (k : FTime) :
    (∃ o : ShutdownOutcome E,
        (ShutdownGroup.mk false svcs).shutdown_all (some (some f)) = .ok o ∧
        o.invocations =
          svcs.map (fun _ => some (SharedSignal.mk (some f)).handleTime)) ∧
    ((SharedSignal.mk (some f)).observedAt t = true ↔ f ≤ t) ∧
    (SharedSignal.mk none).observedAt t = false ∧
    fle (SharedSignal.mk (some f)).handleTime
      ((SharedSignal.mk (some f)).awaitThen k) := by
  refine ⟨⟨_, shutdown_all_flag_false svcs (some (some f)), rfl⟩, ?_, rfl, ?_⟩
  · simp [SharedSignal.observedAt, SharedSignal.handleTime, firedAt]
  · exact fle_fmax_left _ _

/-- Whether the outcome of the callback is a panic. -/
def isPanic {P R : Type} : Except P R → Bool
  | .ok _ => false
  | .error _ => true

/-- Claim C9: `drop_guard` runs the callback in every case, including while
the thread is already unwinding (the state effect of the callback is always
applied); when the callback completes normally its result is returned
unchanged; when the callback panics, the caught payload is propagated
unchanged via `resume_unwind`, and the double-panic backtrace diagnostics are
emitted exactly when the thread was already unwinding. -/
theorem drop_guard_spec {σ P R : Type} (panicking : Bool)
    (f : σ → σ × Except P R) (s : σ) :
    (drop_guard panicking f s).1 = (f s).1 ∧
    (drop_guard panicking f s).2.result = (f s).2 ∧
    (drop_guard panicking f s).2.printedBacktrace =
      (panicking && isPanic (f s).2) := by
  cases hr : (f s).2 with
  | ok v => simp [drop_guard, hr, isPanic]
  | error p => simp [drop_guard, hr, isPanic]

theorem applyOp_main {E : Type} (g : ShutdownGroup E) (op : Op E) :
    (g.applyOp op).2 ≤ 1 ∧
    ((g.applyOp op).2 = 1 → (g.applyOp op).1.shutting_down = true) ∧
    (g.shutting_down = true →
      (g.applyOp op).1.shutting_down = true ∧ (g.applyOp op).2 = 0) := by
  obtain ⟨flag, ss⟩ := g
  cases flag
  case false =>
    cases op with
    | push s => exact ⟨by simp [ShutdownGroup.applyOp], fun h => by
        simp [ShutdownGroup.applyOp] at h, fun h => by simp at h⟩
    | shutdownAll f =>
        have hF := shutdown_all_flag_false ss f
        exact ⟨by simp [ShutdownGroup.applyOp, hF],
          fun _ => by simp [ShutdownGroup.applyOp, hF],
          fun h => by simp at h⟩
    | dropOp =>
        have hF := shutdown_all_flag_false ss (some readyNow)
        exact ⟨by simp [ShutdownGroup.applyOp, ShutdownGroup.dropGroup, hF],
          fun _ => by simp [ShutdownGroup.applyOp, ShutdownGroup.dropGroup, hF],
          fun h => by simp at h⟩
    | waitTerminate n1 n2 =>
        cases n1 with
        | none =>
            exact ⟨by simp [ShutdownGroup.applyOp, ShutdownGroup.wait_to_terminate],
              fun h => by
                simp [ShutdownGroup.applyOp, ShutdownGroup.wait_to_terminate] at h,
              fun h => by simp at h⟩
        | some t1 =>
            have hF := shutdown_all_flag_false ss (some n2)
            exact ⟨by
                simp [ShutdownGroup.applyOp, ShutdownGroup.wait_to_terminate, hF],
              fun _ => by
                simp [ShutdownGroup.applyOp, ShutdownGroup.wait_to_terminate, hF],
              fun h => by simp at h⟩
  case true =>
    have hT := fun f => shutdown_all_flag_true (ShutdownGroup.mk true ss) f rfl
    cases op with
    | push s => exact ⟨by simp [ShutdownGroup.applyOp], fun h => by
        simp [ShutdownGroup.applyOp] at h, fun _ => ⟨rfl, rfl⟩⟩
    | shutdownAll f =>
        exact ⟨by simp [ShutdownGroup.applyOp, hT],
          fun h => by simp [ShutdownGroup.applyOp, hT] at h,
          fun _ => by simp [ShutdownGroup.applyOp, hT]⟩
    | dropOp =>
        exact ⟨by simp [ShutdownGroup.applyOp, ShutdownGroup.dropGroup, hT],
          fun h => by
            simp [ShutdownGroup.applyOp, ShutdownGroup.dropGroup, hT] at h,
          fun _ => by simp [ShutdownGroup.applyOp, ShutdownGroup.dropGroup, hT]⟩
    | waitTerminate n1 n2 =>
        cases n1 with
        | none =>
            exact ⟨by simp [ShutdownGroup.applyOp, ShutdownGroup.wait_to_terminate],
              fun h => by
                simp [ShutdownGroup.applyOp, ShutdownGroup.wait_to_terminate] at h,
              fun _ => by
                simp [ShutdownGroup.applyOp, ShutdownGroup.wait_to_terminate]⟩
        | some t1 =>
            exact ⟨by
                simp [ShutdownGroup.applyOp, ShutdownGroup.wait_to_terminate, hT],
              fun h => by
                simp [ShutdownGroup.applyOp, ShutdownGroup.wait_to_terminate,
                  hT] at h,
              fun _ => by
                simp [ShutdownGroup.applyOp, ShutdownGroup.wait_to_terminate, hT]⟩

theorem runOps_flag_true {E : Type} (ops : List (Op E)) (g : ShutdownGroup E)
    (h : g.shutting_down = true) :
    (ShutdownGroup.runOps g ops).1.shutting_down = true ∧
    (ShutdownGroup.runOps g ops).2 = 0 := by
  induction ops generalizing g with
  | nil => exact ⟨h, rfl⟩
  | cons op ops ih =>
      have ha := (applyOp_main g op).2.2 h
      have hrec := ih (g.applyOp op).1 ha.1
      show (ShutdownGroup.runOps (g.applyOp op).1 ops).1.shutting_down = true ∧
        (g.applyOp op).2 + (ShutdownGroup.runOps (g.applyOp op).1 ops).2 = 0
      refine ⟨hrec.1, ?_⟩
      omega

theorem runOps_count_le_one {E : Type} (ops : List (Op E))
    (g : ShutdownGroup E) : (ShutdownGroup.runOps g ops).2 ≤ 1 := by
  induction ops generalizing g with
  | nil => exact Nat.zero_le 1
  | cons op ops ih =>
      have h1 := (applyOp_main g op).1
      show (g.applyOp op).2 + (ShutdownGroup.runOps (g.applyOp op).1 ops).2 ≤ 1
      by_cases hc : (g.applyOp op).2 = 1
      · have hf := (applyOp_main g op).2.1 hc
        have h0 := (runOps_flag_true ops (g.applyOp op).1 hf).2
        omega
      · have := ih (g.applyOp op).1
        omega

/-- Claim C7: the `shutting_down` flag, once `true`, stays `true` under every
sequence of operations (`push`, `shutdown_all`, `wait_to_terminate`, drop),
and over the whole lifetime of a fresh group at most one shutdown sequence
(one successful `shutdown_all` that invokes the services) ever executes. -/
theorem shutting_down_once_only {E : Type} (svcs : List (Service E))
    (ops : List (Op E)) :
    (ShutdownGroup.runOps (ShutdownGroup.mk true svcs) ops).1.shutting_down =
      true ∧
    (ShutdownGroup.runOps (ShutdownGroup.new : ShutdownGroup E) ops).2 ≤ 1 :=
  ⟨(runOps_flag_true ops (ShutdownGroup.mk true svcs) rfl).1,
    runOps_count_le_one ops ShutdownGroup.new⟩

end DatabendBase
